import Mathlib

set_option maxRecDepth 4000

/-!
# Verification of the rust-remote-shell connection / command-relay engine

A shallow embedding of the core of `rust-remote-shell`:

* `device_server.rs` — the Device-server listener (`DeviceServer::listen`),
  its accept loop, the supervisory shutdown (`DeviceServer::terminate`),
  the per-connection wrapper (`DeviceServer::handle_connection`) and the
  per-connection frame pipeline (`DeviceServer::impl_handle_connection`);
* `sender_client.rs` — the Host-side relay (`SenderClient::connect`,
  `SenderClient::close`) and its frame-intake task;
* `tls.rs` — the TLS configuration provider (`client_tls_config`) and the
  tower-style TLS layer (`TlsService::call`).

Bytes are modelled as `Nat` (values `< 256` on real inputs), byte buffers
as `List Nat`, and Rust `String`s as lists of Unicode scalar values.
`String::from_utf8` / `str::as_bytes` are embedded as an executable strict
UTF-8 decoder/encoder over byte lists.  External collaborators (the shell
execution primitive `CommandHandler::execute`, the webpki default trust
roots) are abstracted exactly at the interface the spec assigns them.
-/

namespace RemoteShell

/-! ## UTF-8 codec

Embedding of Rust's strict UTF-8 validation (`String::from_utf8`) and
encoding (`str::as_bytes`).  A Rust `String` is modelled as a list of
Unicode scalar values. -/

/-- A Unicode scalar value: in range and not a surrogate. -/
def WfScalar (c : Nat) : Prop :=
  c < 0x110000 ∧ (c < 0xD800 ∨ 0xDFFF < c)

/-- All elements of the list are Unicode scalar values (a well-formed
Rust `String`). -/
def WfStr (s : List Nat) : Prop := ∀ c ∈ s, WfScalar c

instance (c : Nat) : Decidable (WfScalar c) := by
  unfold WfScalar
  infer_instance

instance (s : List Nat) : Decidable (WfStr s) := by
  unfold WfStr
  infer_instance

/-- UTF-8 encoding of one Unicode scalar value (`char::encode_utf8`). -/
def utf8EncodeChar (c : Nat) : List Nat :=
  if c ≤ 0x7F then [c]
  else if c ≤ 0x7FF then [0xC0 + c / 0x40, 0x80 + c % 0x40]
  else if c ≤ 0xFFFF then
    [0xE0 + c / 0x1000, 0x80 + (c / 0x40) % 0x40, 0x80 + c % 0x40]
  else
    [0xF0 + c / 0x40000, 0x80 + (c / 0x1000) % 0x40,
     0x80 + (c / 0x40) % 0x40, 0x80 + c % 0x40]

/-- UTF-8 encoding of a string (`str::as_bytes` on the model of `String`). -/
def utf8Encode : List Nat → List Nat
  | [] => []
  | c :: s => utf8EncodeChar c ++ utf8Encode s

/-- Continuation byte check: `0x80 ≤ b ≤ 0xBF`. -/
def utf8IsCont (b : Nat) : Bool := 0x80 ≤ b && b ≤ 0xBF

/-- Admissible second byte of a three-byte sequence headed by `b1`
(rules out overlong encodings and surrogates, as Rust's validator does). -/
def utf8Cont3 (b1 b2 : Nat) : Bool :=
  if b1 = 0xE0 then 0xA0 ≤ b2 && b2 ≤ 0xBF
  else if b1 = 0xED then 0x80 ≤ b2 && b2 ≤ 0x9F
  else utf8IsCont b2

/-- Admissible second byte of a four-byte sequence headed by `b1`
(rules out overlong encodings and values above `U+10FFFF`). -/
def utf8Cont4 (b1 b2 : Nat) : Bool :=
  if b1 = 0xF0 then 0x90 ≤ b2 && b2 ≤ 0xBF
  else if b1 = 0xF4 then 0x80 ≤ b2 && b2 ≤ 0x8F
  else utf8IsCont b2

/-- Fourth byte of a candidate four-byte sequence (leaders outside
`0xF0..0xF4` were not consumed earlier and are invalid, so they fall
through to `none` here, exactly as the strict validator rejects them). -/
def utf8DecodeFour (b b2 b3 : Nat) : List Nat → Option (Nat × List Nat)
  | [] => none
  | b4 :: rest4 =>
    if 0xF0 ≤ b && b ≤ 0xF4 then
      if utf8Cont4 b b2 && utf8IsCont b3 && utf8IsCont b4 then
        some ((b - 0xF0) * 0x40000 + (b2 - 0x80) * 0x1000 +
          (b3 - 0x80) * 0x40 + (b4 - 0x80), rest4)
      else none
    else none

/-- Third byte of a candidate three-or-four-byte sequence. -/
def utf8DecodeThree (b b2 : Nat) : List Nat → Option (Nat × List Nat)
  | [] => none
  | b3 :: rest3 =>
    if 0xE0 ≤ b && b ≤ 0xEF then
      if utf8Cont3 b b2 && utf8IsCont b3 then
        some ((b - 0xE0) * 0x1000 + (b2 - 0x80) * 0x40 + (b3 - 0x80), rest3)
      else none
    else utf8DecodeFour b b2 b3 rest3

/-- Second byte of a candidate multi-byte sequence headed by `b`. -/
def utf8DecodeTwo (b : Nat) : List Nat → Option (Nat × List Nat)
  | [] => none
  | b2 :: rest2 =>
    if 0xC2 ≤ b && b ≤ 0xDF then
      if utf8IsCont b2 then some ((b - 0xC0) * 0x40 + (b2 - 0x80), rest2)
      else none
    else utf8DecodeThree b b2 rest2

/-- Decode one UTF-8-encoded scalar from the front of the byte list,
returning it with the remaining bytes; `none` on empty input or any
invalid sequence (strict validation, as Rust's `String::from_utf8`). -/
def utf8DecodeOne : List Nat → Option (Nat × List Nat)
  | [] => none
  | b :: rest => if b ≤ 0x7F then some (b, rest) else utf8DecodeTwo b rest

/-- Fuel-indexed decoding loop; the fuel only serves structural
termination and is immaterial whenever it bounds the input length. -/
def utf8DecodeAux : Nat → List Nat → Option (List Nat)
  | _, [] => some []
  | 0, _ :: _ => none
  | fuel + 1, b :: rest =>
    match utf8DecodeOne (b :: rest) with
    | none => none
    | some (c, r) => (utf8DecodeAux fuel r).map (c :: ·)

/-- Strict UTF-8 decoding of a byte list (`String::from_utf8`): `some`
with the decoded scalar values on valid input, `none` otherwise. -/
def utf8Decode (l : List Nat) : Option (List Nat) := utf8DecodeAux l.length l

theorem utf8DecodeFour_length {b b2 b3 : Nat} {l r : List Nat} {c : Nat}
    (h : utf8DecodeFour b b2 b3 l = some (c, r)) : r.length < l.length := by
  cases l with
  | nil => simp [utf8DecodeFour] at h
  | cons b4 rest =>
      simp only [utf8DecodeFour] at h
      split at h
      · split at h
        · injection h with h'
          cases h'
          simp only [List.length_cons]
          omega
        · cases h
      · cases h

theorem utf8DecodeThree_length {b b2 : Nat} {l r : List Nat} {c : Nat}
    (h : utf8DecodeThree b b2 l = some (c, r)) : r.length < l.length := by
  cases l with
  | nil => simp [utf8DecodeThree] at h
  | cons b3 rest =>
      simp only [utf8DecodeThree] at h
      split at h
      · split at h
        · injection h with h'
          cases h'
          simp only [List.length_cons]
          omega
        · cases h
      · have := utf8DecodeFour_length h
        simp only [List.length_cons]
        omega

theorem utf8DecodeTwo_length {b : Nat} {l r : List Nat} {c : Nat}
    (h : utf8DecodeTwo b l = some (c, r)) : r.length < l.length := by
  cases l with
  | nil => simp [utf8DecodeTwo] at h
  | cons b2 rest =>
      simp only [utf8DecodeTwo] at h
      split at h
      · split at h
        · injection h with h'
          cases h'
          simp only [List.length_cons]
          omega
        · cases h
      · have := utf8DecodeThree_length h
        simp only [List.length_cons]
        omega

theorem utf8DecodeOne_length {l r : List Nat} {c : Nat}
    (h : utf8DecodeOne l = some (c, r)) : r.length < l.length := by
  cases l with
  | nil => simp [utf8DecodeOne] at h
  | cons b rest =>
      simp only [utf8DecodeOne] at h
      split at h
      · injection h with h'
        cases h'
        simp [List.length_cons]
      · have := utf8DecodeTwo_length h
        simp [List.length_cons]
        omega

/-- The fuel is immaterial once it bounds the input length. -/
theorem utf8DecodeAux_fuel (fuel₁ : Nat) : ∀ (fuel₂ : Nat) (l : List Nat),
    l.length ≤ fuel₁ → l.length ≤ fuel₂ →
    utf8DecodeAux fuel₁ l = utf8DecodeAux fuel₂ l := by
  induction fuel₁ with
  | zero =>
      intro fuel₂ l h1 _
      cases l with
      | nil => cases fuel₂ <;> rfl
      | cons b rest => simp at h1
  | succ f ih =>
      intro fuel₂ l h1 h2
      cases l with
      | nil => cases fuel₂ <;> rfl
      | cons b rest =>
          cases fuel₂ with
          | zero => simp at h2
          | succ f2 =>
              simp only [utf8DecodeAux]
              cases hone : utf8DecodeOne (b :: rest) with
              | none => rfl
              | some p =>
                  obtain ⟨c, r⟩ := p
                  have hr := utf8DecodeOne_length hone
                  simp only [List.length_cons] at hr h1 h2
                  show (utf8DecodeAux f r).map (c :: ·) =
                    (utf8DecodeAux f2 r).map (c :: ·)
                  rw [ih f2 r (by omega) (by omega)]

theorem utf8Decode_nil : utf8Decode [] = some [] := rfl

/-- Unfolding: a decodable head scalar peels off. -/
theorem utf8Decode_step {b : Nat} {rest r : List Nat} {c : Nat}
    (h : utf8DecodeOne (b :: rest) = some (c, r)) :
    utf8Decode (b :: rest) = (utf8Decode r).map (c :: ·) := by
  have hr := utf8DecodeOne_length h
  simp only [List.length_cons] at hr
  show utf8DecodeAux (b :: rest).length (b :: rest) = _
  simp only [List.length_cons, utf8DecodeAux, h]
  rw [utf8DecodeAux_fuel rest.length r.length r (by omega) (le_refl _)]
  rfl

/-- Unfolding: an undecodable head makes the whole byte list invalid. -/
theorem utf8Decode_err {b : Nat} {rest : List Nat}
    (h : utf8DecodeOne (b :: rest) = none) :
    utf8Decode (b :: rest) = none := by
  show utf8DecodeAux (b :: rest).length (b :: rest) = _
  simp only [List.length_cons, utf8DecodeAux, h]

/-- The scalar values of a Lean string literal; used to state facts about
the literal texts the Rust code formats (`Char` is exactly a Unicode
scalar value, so such lists are always well-formed). -/
def scalars (s : String) : List Nat := s.data.map Char.toNat

theorem utf8Encode_append (a b : List Nat) :
    utf8Encode (a ++ b) = utf8Encode a ++ utf8Encode b := by
  induction a with
  | nil => rfl
  | cons c s ih => simp [utf8Encode, ih]

/-- Decoding recovers one correctly encoded scalar and the rest. -/
theorem utf8DecodeOne_encodeChar (c : Nat) (h : WfScalar c) (t : List Nat) :
    utf8DecodeOne (utf8EncodeChar c ++ t) = some (c, t) := by
  obtain ⟨hlt, hsur⟩ := h
  by_cases h1 : c ≤ 0x7F
  · simp only [utf8EncodeChar, if_pos h1, List.cons_append, List.nil_append,
      utf8DecodeOne]
  · by_cases h2 : c ≤ 0x7FF
    · simp only [utf8EncodeChar, if_neg h1, if_pos h2, List.cons_append,
        List.nil_append, utf8DecodeOne, utf8DecodeTwo]
      have hb1 : ¬ (0xC0 + c / 0x40 ≤ 0x7F) := by omega
      have hr : (0xC2 ≤ 0xC0 + c / 0x40 && 0xC0 + c / 0x40 ≤ 0xDF) = true := by
        simp only [Bool.and_eq_true, decide_eq_true_eq]
        omega
      have hcont : utf8IsCont (0x80 + c % 0x40) = true := by
        simp only [utf8IsCont, Bool.and_eq_true, decide_eq_true_eq]
        omega
      rw [if_neg hb1, if_pos hr, if_pos hcont]
      have hv : (0xC0 + c / 0x40 - 0xC0) * 0x40 + (0x80 + c % 0x40 - 0x80) = c := by
        omega
      rw [hv]
    · by_cases h3 : c ≤ 0xFFFF
      · simp only [utf8EncodeChar, if_neg h1, if_neg h2, if_pos h3,
          List.cons_append, List.nil_append, utf8DecodeOne, utf8DecodeTwo,
          utf8DecodeThree]
        have hb1 : ¬ (0xE0 + c / 0x1000 ≤ 0x7F) := by omega
        have hb2 : ¬ ((0xC2 ≤ 0xE0 + c / 0x1000 && 0xE0 + c / 0x1000 ≤ 0xDF) = true) := by
          simp only [Bool.and_eq_true, decide_eq_true_eq]
          omega
        have hb3 : (0xE0 ≤ 0xE0 + c / 0x1000 && 0xE0 + c / 0x1000 ≤ 0xEF) = true := by
          simp only [Bool.and_eq_true, decide_eq_true_eq]
          omega
        have hcont : (utf8Cont3 (0xE0 + c / 0x1000) (0x80 + (c / 0x40) % 0x40) &&
            utf8IsCont (0x80 + c % 0x40)) = true := by
          simp only [utf8Cont3, utf8IsCont, Bool.and_eq_true, decide_eq_true_eq]
          refine ⟨?_, by omega⟩
          split
          · simp only [Bool.and_eq_true, decide_eq_true_eq]
            omega
          · split
            · simp only [Bool.and_eq_true, decide_eq_true_eq]
              omega
            · simp only [utf8IsCont, Bool.and_eq_true, decide_eq_true_eq]
              omega
        rw [if_neg hb1, if_neg hb2, if_pos hb3, if_pos hcont]
        have hv : (0xE0 + c / 0x1000 - 0xE0) * 0x1000 +
            (0x80 + (c / 0x40) % 0x40 - 0x80) * 0x40 + (0x80 + c % 0x40 - 0x80) = c := by
          omega
        rw [hv]
      · simp only [utf8EncodeChar, if_neg h1, if_neg h2, if_neg h3,
          List.cons_append, List.nil_append, utf8DecodeOne, utf8DecodeTwo,
          utf8DecodeThree, utf8DecodeFour]
        have hd : c / 0x40000 ≤ 4 := by omega
        have hb1 : ¬ (0xF0 + c / 0x40000 ≤ 0x7F) := by omega
        have hb2 : ¬ ((0xC2 ≤ 0xF0 + c / 0x40000 && 0xF0 + c / 0x40000 ≤ 0xDF) = true) := by
          simp only [Bool.and_eq_true, decide_eq_true_eq]
          omega
        have hb3 : ¬ ((0xE0 ≤ 0xF0 + c / 0x40000 && 0xF0 + c / 0x40000 ≤ 0xEF) = true) := by
          simp only [Bool.and_eq_true, decide_eq_true_eq]
          omega
        have hb4 : (0xF0 ≤ 0xF0 + c / 0x40000 && 0xF0 + c / 0x40000 ≤ 0xF4) = true := by
          simp only [Bool.and_eq_true, decide_eq_true_eq]
          omega
        have hcont : (utf8Cont4 (0xF0 + c / 0x40000) (0x80 + (c / 0x1000) % 0x40) &&
            utf8IsCont (0x80 + (c / 0x40) % 0x40) && utf8IsCont (0x80 + c % 0x40)) = true := by
          simp only [utf8Cont4, utf8IsCont, Bool.and_eq_true, decide_eq_true_eq]
          refine ⟨⟨?_, by omega⟩, by omega⟩
          split
          · simp only [Bool.and_eq_true, decide_eq_true_eq]
            omega
          · split
            · simp only [Bool.and_eq_true, decide_eq_true_eq]
              omega
            · simp only [utf8IsCont, Bool.and_eq_true, decide_eq_true_eq]
              omega
        rw [if_neg hb1, if_neg hb2, if_neg hb3, if_pos hb4, if_pos hcont]
        have hv : (0xF0 + c / 0x40000 - 0xF0) * 0x40000 +
            (0x80 + (c / 0x1000) % 0x40 - 0x80) * 0x1000 +
            (0x80 + (c / 0x40) % 0x40 - 0x80) * 0x40 + (0x80 + c % 0x40 - 0x80) = c := by
          omega
        rw [hv]

/-- Round trip: decoding a correctly encoded well-formed string returns
exactly that string. -/
theorem utf8Decode_utf8Encode (s : List Nat) (h : WfStr s) :
    utf8Decode (utf8Encode s) = some s := by
  induction s with
  | nil => rfl
  | cons c t ih =>
      have hc : WfScalar c := h c (List.mem_cons_self c t)
      have ht : WfStr t := fun x hx => h x (List.mem_cons_of_mem c hx)
      have hone := utf8DecodeOne_encodeChar c hc (utf8Encode t)
      rw [utf8Encode]
      cases henc : utf8EncodeChar c ++ utf8Encode t with
      | nil =>
          rw [henc] at hone
          simp [utf8DecodeOne] at hone
      | cons b rest =>
          rw [henc] at hone
          rw [utf8Decode_step hone, ih ht]
          rfl

/-! ## Protocol data model

Embeddings of the tungstenite `Message`, `ProtocolError` and `Error`
types, and of the crate's two error enums (`DeviceServerError` from
`device_server.rs`, `SenderClientError` from `sender_client.rs`),
restricted to the payloads the embedded code inspects. -/

/-- A websocket frame (`tungstenite::Message`).  `text` carries the
scalar values of its string, the payload-bearing control frames carry
raw bytes. -/
inductive Message : Type
  | binary (v : List Nat)
  | text (s : List Nat)
  | ping (v : List Nat)
  | close
  deriving DecidableEq, Repr

/-- `Message::into_data`: the payload bytes of a frame. -/
def Message.intoData : Message → List Nat
  | .binary v => v
  | .text s => utf8Encode s
  | .ping v => v
  | .close => []

/-- `tungstenite::error::ProtocolError`, restricted to the variant the
code matches on plus a stand-in for all others. -/
inductive ProtocolError : Type
  | resetWithoutClosingHandshake
  | other
  deriving DecidableEq, Repr

/-- `tungstenite::Error`. -/
inductive TungsteniteError : Type
  | protocol (e : ProtocolError)
  | connectionClosed
  | io
  deriving DecidableEq, Repr

/-- `DeviceServerError` from `device_server.rs`.  `utf8Error` keeps the
offending bytes (Rust's `FromUtf8Error` owns them); `transport` wraps
the tungstenite error. -/
inductive DeviceServerError : Type
  | bind
  | peerAddr
  | webSocketHandshake
  | readCommand
  | utf8Error (bytes : List Nat)
  | transport (e : TungsteniteError)
  | shellError
  | closeWebsocket
  | rustTls
  deriving DecidableEq, Repr

/-- `SenderClientError` from `sender_client.rs`. -/
inductive SenderClientError : Type
  | webSocketConnect
  | ioRead
  | ioWrite
  | channel
  | tungsteniteReadData (e : TungsteniteError)
  | disconnected
  deriving DecidableEq, Repr

/-! ## Device-side command executor (`DeviceServer::impl_handle_connection`)

The shell collaborator is external (spec §1: the core treats it as
`execute(command: String) -> Result<String, ShellError>`); it is a
parameter `shell`, whose error value is the `Display` rendering of the
`ShellError` (the only thing the code uses, via `format!`). -/

/-- One step of the per-connection pipeline: the two chained `and_then`
stages of `impl_handle_connection` applied to one inbound frame.
Binary payloads are UTF-8–decoded (failure is the fatal `Utf8Error`),
the command is run by a fresh default handler, a shell-level failure is
rendered as `"Shell error: <message>\n"`, and the result is re-encoded
as an outbound Binary frame.  A Close frame yields `CloseWebsocket`,
any other frame kind `ReadCommand`. -/
def processMsg (shell : List Nat → Except (List Nat) (List Nat)) :
    Message → Except DeviceServerError Message
  | .binary v =>
    match utf8Decode v with
    | none => .error (.utf8Error v)
    | some cmd =>
      let out := match shell cmd with
        | .ok o => o
        | .error e => scalars "Shell error: " ++ e ++ scalars "\n"
      .ok (.binary (utf8Encode out))
  | .close => .error .closeWebsocket
  | .text _ => .error .readCommand
  | .ping _ => .error .readCommand

/-- An item produced by the connection's read half: a frame, or a
transport error (which `map_err` wraps into
`DeviceServerError::Transport`). -/
def InEvent : Type := Except TungsteniteError Message

/-- The whole pipeline
`read.map_err(..).and_then(..).and_then(..).forward(write)`: frames are
processed in order and each produced frame is forwarded to the write
half; the first error (transport error from the read half, or pipeline
error from `processMsg`) stops processing.  Returns the frames written
before the stop together with the connection's terminal result. -/
def runConn (shell : List Nat → Except (List Nat) (List Nat)) :
    List InEvent → List Message × Except DeviceServerError Unit
  | [] => ([], .ok ())
  | .error te :: _ => ([], .error (.transport te))
  | .ok m :: rest =>
    match processMsg shell m with
    | .error e => ([], .error e)
    | .ok out =>
      let p := runConn shell rest
      (out :: p.1, p.2)

/-- Successfully processed prefixes compose: the frames they forwarded
stay forwarded and the tail alone decides the rest of the run. -/
theorem runConn_append (shell : List Nat → Except (List Nat) (List Nat))
    (xs ys : List InEvent) (h : (runConn shell xs).2 = .ok ()) :
    runConn shell (xs ++ ys) =
      ((runConn shell xs).1 ++ (runConn shell ys).1, (runConn shell ys).2) := by
  induction xs with
  | nil => simp [runConn]
  | cons x xs ih =>
      cases x with
      | error te => simp [runConn] at h
      | ok m =>
          cases hm : processMsg shell m with
          | error e => simp [runConn, hm] at h
          | ok out =>
              simp only [runConn, hm, List.cons_append, List.append_eq] at h ⊢
              rw [ih h]

/-! ## Connection wrapper and supervisor (`DeviceServer`) -/

/-- What `DeviceServer::handle_connection` does with the pipeline's
result. -/
structure HandleOutcome : Type where
  /-- Errors delivered to the shared error channel (`tx_err.send`). -/
  sent : List DeviceServerError
  /-- A `warn!("Websocket connection closed")` was logged. -/
  warned : Bool
  /-- The task panicked (an `.expect` failed). -/
  panicked : Bool
  deriving DecidableEq, Repr

/-- `DeviceServer::handle_connection`: `Ok` ends silently;
`CloseWebsocket` and `Transport(Protocol(ResetWithoutClosingHandshake))`
are logged at warning level and nothing is escalated; every other error
is sent on the error channel, where `.expect("Error handler failure")`
panics the task if the receiving side is already closed. -/
def handleConnection (r : Except DeviceServerError Unit) (rxClosed : Bool) :
    HandleOutcome :=
  match r with
  | .ok _ => ⟨[], false, false⟩
  | .error .closeWebsocket => ⟨[], true, false⟩
  | .error (.transport (.protocol .resetWithoutClosingHandshake)) =>
      ⟨[], true, false⟩
  | .error e => if rxClosed then ⟨[], false, true⟩ else ⟨[e], false, false⟩

/-- The benign-disconnect classification implicit in
`handle_connection`'s match arms. -/
def benignError : DeviceServerError → Bool
  | .closeWebsocket => true
  | .transport (.protocol .resetWithoutClosingHandshake) => true
  | _ => false

/-- A supervisory step of `DeviceServer::listen` / `terminate`; task
handles are identified by numbers. -/
inductive SupAction : Type
  | abortAcceptLoop
  | joinAcceptLoopTolerant
  | abortConn (h : Nat)
  deriving DecidableEq, Repr

/-- `DeviceServer::terminate`: abort the accept-loop task, await its
join tolerating cancellation (logging any other join failure), then
abort every registered per-connection task. -/
def terminate (handles : List Nat) : List SupAction :=
  .abortAcceptLoop :: .joinAcceptLoopTolerant :: handles.map .abortConn

/-- The supervisory tail of `DeviceServer::listen`: it awaits the first
message on the error channel; on `some err` it runs `terminate` and
returns `Err(err)`, on `none` (all senders gone) it returns `Ok(())`. -/
def listenSupervise (handles : List Nat)
    (firstErr : Option DeviceServerError) :
    List SupAction × Except DeviceServerError Unit :=
  match firstErr with
  | some e => (terminate handles, .error e)
  | none => ([], .ok ())

/-! ## Accept loop and TLS layer

Two distinct pieces of code accept TLS connections on the listening
role: the accept loop inside `DeviceServer::listen` (device_server.rs)
and the tower layer `TlsService::call` (tls.rs).  Raw and TLS streams
are identified by numbers; a handshake is an environment-given partial
function from raw to TLS streams. -/

/-- The accept loop spawned by `DeviceServer::listen`, driven by the
list of accepted raw connections together with each one's TLS handshake
outcome.  The loop body runs
`acceptor.accept(stream).await.expect("expected TLS stream")`: on
handshake success the connection task is spawned (its TLS stream is
recorded), on failure the `.expect` panics the accept-loop task, which
stops the loop — later accepted connections are never served.  Returns
the spawned streams and whether the loop panicked. -/
def acceptLoop : List (Except Unit Nat) → List Nat × Bool
  | [] => ([], false)
  | .ok s :: rest =>
    let p := acceptLoop rest
    (s :: p.1, p.2)
  | .error _ :: _ => ([], true)

/-- `HostError`, reduced to the variants `TlsService` produces
(`host.rs` is outside the embedded sources; the constructors are those
used in `tls.rs`). -/
inductive HostError : Type
  | acceptTls
  | inner
  deriving DecidableEq, Repr

/-- `TlsService::call` (tls.rs): perform the TLS handshake on the
request; on failure return `Err(HostError::AcceptTls(..))` — a plain
per-connection error — and only on success call the inner service. -/
def TlsService.call (handshake : Nat → Except Unit Nat)
    (inner : Nat → Except HostError Unit) (req : Nat) :
    Except HostError Unit :=
  match handshake req with
  | .error _ => .error .acceptTls
  | .ok stream => inner stream

/-! ## Host-side relay (`SenderClient`) -/

/-- The drain loop at the end of `SenderClient::close`: pop every frame
still queued on the output channel (`while let Ok(cmd_out) =
channel.try_recv()`), write its payload bytes (`into_data`) to local
standard output and flush.  Writing is environment-fallible
(`writeOk`); a failed write is `SenderClientError::IOWrite` and stops
the drain.  Returns the payloads written and the loop's result. -/
def closeDrain (writeOk : List Nat → Bool) :
    List Message → List (List Nat) × Except SenderClientError Unit
  | [] => ([], .ok ())
  | m :: ms =>
    if writeOk m.intoData then
      let p := closeDrain writeOk ms
      (m.intoData :: p.1, p.2)
    else ([], .error .ioWrite)

/-- `SenderClient::close`: abort the two duty tasks, join them
tolerating cancellation, then drain the queued output to stdout. -/
def senderClose (writeOk : List Nat → Bool) (queued : List Message) :
    List (List Nat) × Except SenderClientError Unit :=
  closeDrain writeOk queued

/-- The supervisory tail of `SenderClient::connect`: the first value on
the error channel selects a branch, and both branches run `close` on
the queued frames — `Ok(())` returns `close`'s result, `Err(err)` runs
`close` and (when it succeeds, via `?`) returns `Err(err)`. -/
def connectFinish (writeOk : List Nat → Bool)
    (first : Except SenderClientError Unit) (queued : List Message) :
    List (List Nat) × Except SenderClientError Unit :=
  match first with
  | .ok _ => senderClose writeOk queued
  | .error e =>
    let p := senderClose writeOk queued
    match p.2 with
    | .ok _ => (p.1, .error e)
    | .error e2 => (p.1, .error e2)

/-- End of the Host's frame-intake task (`handle_read` in
`SenderClient::connect`): a successful stream end finishes the task;
on an error `res`, `tx_err.send(Err(err)).await.expect("channel error")`
delivers it — and panics the task if the channel's receiving side is
closed.  Returns (panicked, errors delivered). -/
def handleReadFinish (res : Except SenderClientError Unit)
    (rxErrClosed : Bool) : Bool × List SenderClientError :=
  match res with
  | .ok _ => (false, [])
  | .error e => if rxErrClosed then (true, []) else (false, [e])

/-! ## TLS configuration provider (`client_tls_config` in tls.rs) -/

/-- An item of a PEM/DER bundle as produced by `rustls_pemfile`
(`Item`): the kinds `client_tls_config`'s match distinguishes. -/
inductive PemItem : Type
  | x509 (bytes : List Nat)
  | pkcs8Key (bytes : List Nat)
  | rsaKey (bytes : List Nat)
  deriving DecidableEq, Repr

/-- Whether a bundle item is an X.509 certificate. -/
def PemItem.isX509 : PemItem → Bool
  | .x509 _ => true
  | _ => false

/-- The raw bytes carried by a bundle item. -/
def PemItem.certBytes : PemItem → List Nat
  | .x509 b => b
  | .pkcs8Key b => b
  | .rsaKey b => b

/-- An entry of the client's root trust store: a certificate added from
the CA bundle, or the webpki default trust-root collection added by
`add_server_trust_anchors(webpki_roots::TLS_SERVER_ROOTS ...)` (an
external constant, kept opaque as one marker entry). -/
inductive RootEntry : Type
  | cert (bytes : List Nat)
  | defaultAnchors
  deriving DecidableEq, Repr

/-- `DeviceError`, reduced to the variants `client_tls_config` produces
(`device.rs` is outside the embedded sources; the constructors are
those used in `tls.rs`). -/
inductive DeviceError : Type
  | readFile
  | wrongItem
  | webSocketConnect
  deriving DecidableEq, Repr

/-- The `for item in read_all(..)` loop of `client_tls_config`: each
X.509 certificate is added to the root store; any other item kind
aborts with `DeviceError::WrongItem`. -/
def addBundle : List PemItem → Except DeviceError (List RootEntry)
  | [] => .ok []
  | .x509 c :: rest => (addBundle rest).map (.cert c :: ·)
  | .pkcs8Key _ :: _ => .error .wrongItem
  | .rsaKey _ :: _ => .error .wrongItem

/-- `client_tls_config` (tls.rs): start from an empty root store; if a
CA bundle is given, add its entries (failing on any non-certificate
item); then — unconditionally — add the webpki default trust anchors;
build the client config from the resulting store. -/
def client_tls_config (caBundle : Option (List PemItem)) :
    Except DeviceError (List RootEntry) :=
  match caBundle with
  | none => .ok [.defaultAnchors]
  | some items => (addBundle items).map (· ++ [.defaultAnchors])

/-- Modelled from the spec (§4.1, §7): the claimed client trust
configuration, in which an explicit CA bundle and the default trust
roots are alternatives — a supplied bundle alone populates the store,
and the default roots are used only when the bundle is omitted.  This
is the reference point the code is compared against. -/
def client_tls_config_claimed (caBundle : Option (List PemItem)) :
    Except DeviceError (List RootEntry) :=
  match caBundle with
  | none => .ok [.defaultAnchors]
  | some items => addBundle items

/-! ## Per-command handler freshness (`CommandHandler::default()`)

A variant of the pipeline that makes the executor state explicit: the
shell collaborator is a state-passing function on an arbitrary handler
type, and — exactly as `impl_handle_connection` does — each command is
run on `CommandHandler::default()`, the freshly constructed handler,
with the post-execution handler dropped. -/

/-- One pipeline step with an explicit handler state: the code's
`let cmd_handler = CommandHandler::default();` followed by
`cmd_handler.execute(cmd)` (the updated handler is dropped). -/
def processMsgStateful {H : Type} (dflt : H)
    (exec : H → List Nat → Except (List Nat) (List Nat) × H) :
    Message → Except DeviceServerError Message
  | .binary v =>
    match utf8Decode v with
    | none => .error (.utf8Error v)
    | some cmd =>
      let handler := dflt
      let r := exec handler cmd
      let out := match r.1 with
        | .ok o => o
        | .error e => scalars "Shell error: " ++ e ++ scalars "\n"
      .ok (.binary (utf8Encode out))
  | .close => .error .closeWebsocket
  | .text _ => .error .readCommand
  | .ping _ => .error .readCommand

/-- The pipeline with a threaded handler state `h` — the state a
stateful executor design would carry between commands.  The code never
reads it: every step runs on the fresh default handler. -/
def runConnStateful {H : Type} (dflt : H)
    (exec : H → List Nat → Except (List Nat) (List Nat) × H) (h : H) :
    List InEvent → List Message × Except DeviceServerError Unit
  | [] => ([], .ok ())
  | .error te :: _ => ([], .error (.transport te))
  | .ok m :: rest =>
    match processMsgStateful dflt exec m with
    | .error e => ([], .error e)
    | .ok out =>
      let p := runConnStateful dflt exec h rest
      (out :: p.1, p.2)

/-! ## Auxiliary lemmas for the claim theorems -/

/-- A processed Binary frame whose payload decodes to a command: the
command's shell result is rendered and re-encoded. -/
theorem processMsg_binary_decoded
    (shell : List Nat → Except (List Nat) (List Nat)) (v s : List Nat)
    (hd : utf8Decode v = some s) :
    processMsg shell (.binary v) =
      .ok (.binary (utf8Encode (match shell s with
        | .ok o => o
        | .error e => scalars "Shell error: " ++ e ++ scalars "\n"))) := by
  simp only [processMsg, hd]

/-- Inserting one event after a successfully processed prefix. -/
theorem runConn_mid (shell : List Nat → Except (List Nat) (List Nat))
    (good : List InEvent) (ev : InEvent) (rest : List InEvent)
    (hg : (runConn shell good).2 = .ok ()) :
    runConn shell (good ++ ev :: rest) =
      ((runConn shell good).1 ++ (runConn shell (ev :: rest)).1,
       (runConn shell (ev :: rest)).2) :=
  runConn_append shell good (ev :: rest) hg

/-- `closeDrain` under successful writes drains everything, in order. -/
theorem closeDrain_all (writeOk : List Nat → Bool) (queued : List Message)
    (h : ∀ m ∈ queued, writeOk m.intoData = true) :
    closeDrain writeOk queued = (queued.map Message.intoData, .ok ()) := by
  induction queued with
  | nil => rfl
  | cons m ms ih =>
      have hm : writeOk m.intoData = true := h m (List.mem_cons_self m ms)
      have hms : ∀ x ∈ ms, writeOk x.intoData = true :=
        fun x hx => h x (List.mem_cons_of_mem m hx)
      simp only [closeDrain, hm, if_true, ih hms, List.map_cons]

/-- `addBundle` on a bundle of certificates collects them, in order. -/
theorem addBundle_all_x509 (items : List PemItem)
    (h : ∀ i ∈ items, i.isX509 = true) :
    addBundle items = .ok (items.map fun i => RootEntry.cert i.certBytes) := by
  induction items with
  | nil => rfl
  | cons i rest ih =>
      have hi := h i (List.mem_cons_self i rest)
      have hrest : ∀ x ∈ rest, x.isX509 = true :=
        fun x hx => h x (List.mem_cons_of_mem i hx)
      cases i with
      | x509 b =>
          simp only [addBundle, ih hrest, Except.map, List.map_cons,
            PemItem.certBytes]
      | pkcs8Key b => simp [PemItem.isX509] at hi
      | rsaKey b => simp [PemItem.isX509] at hi

/-- `addBundle` fails with `WrongItem` as soon as the bundle holds a
non-certificate item. -/
theorem addBundle_bad (items : List PemItem)
    (h : ∃ i ∈ items, i.isX509 = false) :
    addBundle items = .error .wrongItem := by
  induction items with
  | nil => simp at h
  | cons i rest ih =>
      obtain ⟨j, hj, hjb⟩ := h
      cases i with
      | x509 b =>
          rcases List.mem_cons.mp hj with hj' | hj'
          · rw [hj'] at hjb
            simp [PemItem.isX509] at hjb
          · simp only [addBundle, ih ⟨j, hj', hjb⟩, Except.map]
      | pkcs8Key b => rfl
      | rsaKey b => rfl

/-- The two pipelines agree: threading a handler state through the
executor changes nothing, because every step runs on the freshly
constructed default handler. -/
theorem runConnStateful_eq_runConn {H : Type} (dflt : H)
    (exec : H → List Nat → Except (List Nat) (List Nat) × H) (h : H)
    (evts : List InEvent) :
    runConnStateful dflt exec h evts =
      runConn (fun cmd => (exec dflt cmd).1) evts := by
  induction evts with
  | nil => rfl
  | cons ev rest ih =>
      cases ev with
      | error te => rfl
      | ok m =>
          have hm : processMsgStateful dflt exec m =
              processMsg (fun cmd => (exec dflt cmd).1) m := by
            cases m <;> rfl
          simp only [runConnStateful, runConn, hm]
          cases processMsg (fun cmd => (exec dflt cmd).1) m with
          | error e => rfl
          | ok out => simp only [ih]

/-! ## Claim theorems -/

/-- C1: the claim says a TLS handshake failure is fatal only to the
single connection and the acceptor loop keeps accepting.  The layered
`TlsService::call` of tls.rs does behave this way (second conjunct),
but the accept loop of `DeviceServer::listen` does not: evaluated on
three accepted raw connections whose middle handshake fails, the
`.expect("expected TLS stream")` panics the accept-loop task — only the
first connection is ever served, the panic is reported nowhere, and the
later connection is never accepted (first conjunct: spawned streams are
`[1]` and the loop panicked). -/
theorem C1_handshake_failure_panics_accept_loop :
    acceptLoop [.ok 1, .error (), .ok 2] = ([1], true)
    ∧ TlsService.call (fun _ => .error ()) (fun _ => .ok ()) 0 =
        .error .acceptTls :=
  ⟨rfl, rfl⟩

/-- C2: on the Host relay, whatever first result starts the shutdown
(fatal error or normal closure), `SenderClient::close` writes every
already-queued frame's payload bytes to local stdout, in order, before
returning — provided the stdout writes themselves succeed; no enqueued
frame is discarded. -/
theorem C2_close_drains_all_queued_frames (writeOk : List Nat → Bool)
    (first : Except SenderClientError Unit) (queued : List Message)
    (h : ∀ m ∈ queued, writeOk m.intoData = true) :
    (connectFinish writeOk first queued).1 = queued.map Message.intoData := by
  have hd := closeDrain_all writeOk queued h
  cases first with
  | ok u => simp [connectFinish, senderClose, hd]
  | error e => simp [connectFinish, senderClose, hd]

/-- Witness for C2: two queued Binary frames are both written, in
order, when shutdown starts from a fatal intake error. -/
theorem C2_witness :
    (∀ m ∈ [Message.binary [104], Message.binary [105]],
      (fun _ : List Nat => true) m.intoData = true)
    ∧ (connectFinish (fun _ => true) (.error .disconnected)
        [Message.binary [104], Message.binary [105]]).1 = [[104], [105]] :=
  ⟨by decide,
   C2_close_drains_all_queued_frames (fun _ => true) (.error .disconnected)
     [Message.binary [104], Message.binary [105]] (by decide)⟩

/-- C3: a command whose shell execution fails is not fatal: after a
successfully processed prefix, the Binary frame carrying that command
produces exactly one outbound Binary frame whose payload is the UTF-8
encoding of `"Shell error: <message>\n"` (in particular the literal
`"Shell error:"` is a prefix of it), and the remaining events are
processed exactly as they would be on their own — the connection stays
open. -/
theorem C3_shell_error_is_recovered
    (shell : List Nat → Except (List Nat) (List Nat))
    (good : List InEvent) (cmd e : List Nat) (rest : List InEvent)
    (hg : (runConn shell good).2 = .ok ())
    (hcmd : WfStr cmd)
    (he : shell cmd = .error e) :
    runConn shell (good ++ .ok (.binary (utf8Encode cmd)) :: rest) =
      ((runConn shell good).1 ++
        .binary (utf8Encode (scalars "Shell error: " ++ e ++ scalars "\n")) ::
          (runConn shell rest).1,
       (runConn shell rest).2)
    ∧ List.IsPrefix (utf8Encode (scalars "Shell error:"))
        (utf8Encode (scalars "Shell error: " ++ e ++ scalars "\n")) := by
  constructor
  · have hp := processMsg_binary_decoded shell (utf8Encode cmd) cmd
      (utf8Decode_utf8Encode cmd hcmd)
    rw [he] at hp
    rw [runConn_mid shell good _ rest hg]
    simp only [runConn, hp]
  · refine ⟨utf8Encode (scalars " " ++ e ++ scalars "\n"), ?_⟩
    rw [← utf8Encode_append]
    have hsp : scalars "Shell error:" ++ (scalars " " ++ e ++ scalars "\n") =
        scalars "Shell error: " ++ e ++ scalars "\n" := by
      have : scalars "Shell error: " = scalars "Shell error:" ++ scalars " " := by
        decide
      rw [this]
      simp [List.append_assoc]
    rw [hsp]

/-- Witness for C3: command `"hi"` on a shell that fails with message
`"x"` yields the single frame `"Shell error: x\n"` and an `Ok` end of
connection. -/
theorem C3_witness :
    ((runConn (fun _ => .error [120]) []).2 = .ok ())
    ∧ WfStr [104, 105]
    ∧ ((fun _ : List Nat => (.error [120] : Except (List Nat) (List Nat)))
        [104, 105] = .error [120])
    ∧ runConn (fun _ => .error [120])
        ([] ++ .ok (.binary (utf8Encode [104, 105])) :: []) =
      (((runConn (fun _ => .error [120]) []).1 ++
        .binary (utf8Encode (scalars "Shell error: " ++ [120] ++ scalars "\n")) ::
          (runConn (fun _ => .error [120]) []).1),
       (runConn (fun _ => .error [120]) []).2) :=
  ⟨rfl, by decide, rfl,
   (C3_shell_error_is_recovered (fun _ => .error [120]) [] [104, 105] [120] []
     rfl (by decide) rfl).1⟩

/-- C4: a Binary frame whose payload is not valid UTF-8 terminates the
connection with `Utf8Error` carrying that payload; the frames forwarded
are exactly those of the prefix — none is produced for the bad payload,
and no later event is processed. -/
theorem C4_invalid_utf8_is_fatal
    (shell : List Nat → Except (List Nat) (List Nat))
    (good : List InEvent) (v : List Nat) (rest : List InEvent)
    (hg : (runConn shell good).2 = .ok ())
    (hv : utf8Decode v = none) :
    runConn shell (good ++ .ok (.binary v) :: rest) =
      ((runConn shell good).1, .error (.utf8Error v)) := by
  rw [runConn_mid shell good _ rest hg]
  simp only [runConn, processMsg, hv, List.append_nil]

/-- Witness for C4: the lone byte `0xFF` is rejected even though a
Close frame is still pending behind it. -/
theorem C4_witness :
    ((runConn (fun c => .ok c) []).2 = .ok ())
    ∧ utf8Decode [255] = none
    ∧ runConn (fun c => .ok c) ([] ++ .ok (.binary [255]) :: [.ok .close]) =
        ((runConn (fun c => .ok c) []).1, .error (.utf8Error [255])) :=
  ⟨rfl, by decide,
   C4_invalid_utf8_is_fatal (fun c => .ok c) [] [255] [.ok .close] rfl
     (by decide)⟩

/-- C5: after a successfully processed prefix, a Close frame ends the
connection with `CloseWebsocket` and a transport reset without closing
handshake ends it with the corresponding `Transport` error, and
`handle_connection` classifies both as benign: a warning is logged, no
error is sent to the shared error channel (so supervisory shutdown is
never triggered), no panic — whatever the state of the channel. -/
theorem C5_close_and_reset_are_benign
    (shell : List Nat → Except (List Nat) (List Nat))
    (good rest rest' : List InEvent) (closed : Bool)
    (hg : (runConn shell good).2 = .ok ()) :
    (runConn shell (good ++ .ok .close :: rest)).2 = .error .closeWebsocket
    ∧ handleConnection
        (runConn shell (good ++ .ok .close :: rest)).2 closed =
        ⟨[], true, false⟩
    ∧ (runConn shell
        (good ++ .error (.protocol .resetWithoutClosingHandshake) :: rest')).2 =
        .error (.transport (.protocol .resetWithoutClosingHandshake))
    ∧ handleConnection
        (runConn shell
          (good ++ .error (.protocol .resetWithoutClosingHandshake) :: rest')).2
        closed = ⟨[], true, false⟩ := by
  have h1 : (runConn shell (good ++ .ok .close :: rest)).2 =
      .error .closeWebsocket := by
    rw [runConn_mid shell good _ rest hg]
    simp only [runConn, processMsg]
  have h2 : (runConn shell
      (good ++ .error (.protocol .resetWithoutClosingHandshake) :: rest')).2 =
      .error (.transport (.protocol .resetWithoutClosingHandshake)) := by
    rw [runConn_mid shell good _ rest' hg]
    simp only [runConn]
  exact ⟨h1, by rw [h1]; rfl, h2, by rw [h2]; rfl⟩

/-- Witness for C5 at an empty prefix, empty tails and a closed
channel. -/
theorem C5_witness :
    ((runConn (fun c => .ok c) []).2 = .ok ())
    ∧ (runConn (fun c => .ok c) ([] ++ .ok .close :: [])).2 =
        .error .closeWebsocket
    ∧ handleConnection
        (runConn (fun c => .ok c) ([] ++ .ok .close :: [])).2 true =
        ⟨[], true, false⟩ :=
  ⟨rfl,
   (C5_close_and_reset_are_benign (fun c => .ok c) [] [] [] true rfl).1,
   (C5_close_and_reset_are_benign (fun c => .ok c) [] [] [] true rfl).2.1⟩

/-- C6: when a first error `e` is delivered on the error channel, the
supervisor performs exactly the `terminate` sequence — abort the
accept-loop task, join it tolerating cancellation, then abort every
registered per-connection task — and `listen` returns `Err(e)`, the
very same error. -/
theorem C6_first_error_terminates_listener (e : DeviceServerError)
    (handles : List Nat) :
    listenSupervise handles (some e) =
      (SupAction.abortAcceptLoop :: SupAction.joinAcceptLoopTolerant ::
        handles.map SupAction.abortConn, .error e) :=
  rfl

/-- C7: a Binary frame whose payload decodes to the command string `s`,
arriving after a successfully processed prefix, produces exactly one
outbound Binary frame whose payload is byte-for-byte the UTF-8 encoding
of the shell collaborator's output for that same `s`, and the rest of
the stream is processed unchanged — the relay alters no payload
bytes. -/
theorem C7_relay_preserves_payload
    (shell : List Nat → Except (List Nat) (List Nat))
    (good : List InEvent) (v s out : List Nat) (rest : List InEvent)
    (hg : (runConn shell good).2 = .ok ())
    (hd : utf8Decode v = some s)
    (hs : shell s = .ok out) :
    runConn shell (good ++ .ok (.binary v) :: rest) =
      ((runConn shell good).1 ++
        .binary (utf8Encode out) :: (runConn shell rest).1,
       (runConn shell rest).2) := by
  have hp := processMsg_binary_decoded shell v s hd
  rw [hs] at hp
  rw [runConn_mid shell good _ rest hg]
  simp only [runConn, hp]

/-- Witness for C7: payload `"h"` on the shell `c ↦ c ++ "!"` comes
back as the frame `"h!"`. -/
theorem C7_witness :
    ((runConn (fun c => .ok (c ++ [33])) []).2 = .ok ())
    ∧ utf8Decode [104] = some [104]
    ∧ ((fun c : List Nat => (.ok (c ++ [33]) : Except (List Nat) (List Nat)))
        [104] = .ok [104, 33])
    ∧ runConn (fun c => .ok (c ++ [33])) ([] ++ .ok (.binary [104]) :: []) =
        ((runConn (fun c => .ok (c ++ [33])) []).1 ++
          .binary (utf8Encode [104, 33]) ::
            (runConn (fun c => .ok (c ++ [33])) []).1,
         (runConn (fun c => .ok (c ++ [33])) []).2) :=
  ⟨rfl, by decide, rfl,
   C7_relay_preserves_payload (fun c => .ok (c ++ [33])) [] [104] [104]
     [104, 33] [] rfl (by decide) rfl⟩

/-- C8 counterexample: for the one-certificate bundle `[x509 [1]]` the
code's trust store is the bundle certificate *plus* the webpki default
anchors, while the claimed either/or configuration would contain the
bundle certificate alone — the two disagree. -/
theorem C8_counterexample :
    client_tls_config (some [.x509 [1]]) =
      .ok [.cert [1], .defaultAnchors]
    ∧ client_tls_config_claimed (some [.x509 [1]]) = .ok [.cert [1]]
    ∧ ([RootEntry.cert [1], RootEntry.defaultAnchors] ≠ [RootEntry.cert [1]]) :=
  ⟨rfl, rfl, by decide⟩

/-- C8 amended: client trust configuration — with no CA bundle the
store is exactly the default trust roots; with a bundle whose items are
all X.509 certificates the store is the bundle's certificates, in
order, with the default trust roots appended as well; a bundle holding
any non-certificate item yields `WrongItem` and no config. -/
theorem C8_trust_store_bundle_plus_defaults (items : List PemItem) :
    client_tls_config none = .ok [.defaultAnchors]
    ∧ ((∀ i ∈ items, i.isX509 = true) →
        client_tls_config (some items) =
          .ok ((items.map fun i => RootEntry.cert i.certBytes) ++
            [.defaultAnchors]))
    ∧ ((∃ i ∈ items, i.isX509 = false) →
        client_tls_config (some items) = .error .wrongItem) := by
  refine ⟨rfl, ?_, ?_⟩
  · intro h
    simp only [client_tls_config, addBundle_all_x509 items h, Except.map]
  · intro h
    simp only [client_tls_config, addBundle_bad items h, Except.map]

/-- Witness for C8: a two-certificate bundle builds certs + defaults; a
key item is a configuration error. -/
theorem C8_witness :
    (∀ i ∈ [PemItem.x509 [1], PemItem.x509 [2]], i.isX509 = true)
    ∧ client_tls_config (some [.x509 [1], .x509 [2]]) =
        .ok [.cert [1], .cert [2], .defaultAnchors]
    ∧ (∃ i ∈ [PemItem.pkcs8Key [9]], i.isX509 = false)
    ∧ client_tls_config (some [.pkcs8Key [9]]) = .error .wrongItem :=
  ⟨by decide,
   (C8_trust_store_bundle_plus_defaults [.x509 [1], .x509 [2]]).2.1 (by decide),
   by decide,
   (C8_trust_store_bundle_plus_defaults [.pkcs8Key [9]]).2.2 (by decide)⟩

/-- C9: the pipeline run with any threaded executor state is identical
to the run with any other — and equal to the stateless pipeline in
which every command is executed by the freshly constructed default
handler — so no executor state is carried between commands, within a
connection or across connections. -/
theorem C9_fresh_default_handler_per_command {H : Type} (dflt : H)
    (exec : H → List Nat → Except (List Nat) (List Nat) × H) (h₁ h₂ : H)
    (evts : List InEvent) :
    runConnStateful dflt exec h₁ evts = runConnStateful dflt exec h₂ evts
    ∧ runConnStateful dflt exec h₁ evts =
        runConn (fun cmd => (exec dflt cmd).1) evts := by
  have e₁ := runConnStateful_eq_runConn dflt exec h₁ evts
  have e₂ := runConnStateful_eq_runConn dflt exec h₂ evts
  exact ⟨e₁.trans e₂.symm, e₁⟩

/-- C10: with the error channel's receiving side closed, escalating a
fatal (non-benign) error panics the Device-side connection task
(`expect("Error handler failure")`), and escalating any error panics
the Host-side intake task (`expect("channel error")`); in both cases
nothing is silently dropped or returned. -/
theorem C10_escalation_is_asserted (e : DeviceServerError)
    (e' : SenderClientError) (hf : benignError e = false) :
    handleConnection (.error e) true = ⟨[], false, true⟩
    ∧ handleReadFinish (.error e') true = (true, []) := by
  constructor
  · cases e with
    | closeWebsocket => simp [benignError] at hf
    | transport te =>
        cases te with
        | protocol pe =>
            cases pe with
            | resetWithoutClosingHandshake => simp [benignError] at hf
            | other => rfl
        | connectionClosed => rfl
        | io => rfl
    | bind => rfl
    | peerAddr => rfl
    | webSocketHandshake => rfl
    | readCommand => rfl
    | utf8Error v => rfl
    | shellError => rfl
    | rustTls => rfl
  · rfl

/-- Witness for C10 at a protocol error and an intake read error. -/
theorem C10_witness :
    benignError .readCommand = false
    ∧ handleConnection (.error .readCommand) true = ⟨[], false, true⟩
    ∧ handleReadFinish (.error .disconnected) true = (true, []) :=
  ⟨by decide,
   (C10_escalation_is_asserted .readCommand .disconnected (by decide)).1,
   (C10_escalation_is_asserted .readCommand .disconnected (by decide)).2⟩

end RemoteShell
